import Mathlib

/-!
Shallow embedding of `packages/model-viewer/src/features/annotation.ts`
(the AnnotationMixin of the model-viewer web component): the hotspot
registry, the lifecycle callbacks, the per-frame synchronizer and the
pixel-picking transform, together with theorems settling the frozen
claims about them.

Numbers (JS `number`) are modelled as rationals; DOM nodes, mutation
records and the collaborating scene are modelled as explicit data; the
mixin's mutable fields become an explicit state record threaded through
the operations.
-/

namespace ModelViewer

/-- A 3D vector, as three.js `Vector3` restricted to the operations the
module uses. Components are rationals standing in for JS numbers. -/
structure Vector3 where
  x : ℚ
  y : ℚ
  z : ℚ
  deriving DecidableEq

/-- A DOM node as seen by `$addHotspot` / `$removeHotspot`: whether it is
an `HTMLElement`, its `slot` string, and its `data-position` /
`data-normal` attributes (`node.dataset.position` / `node.dataset.normal`,
absent attributes being `undefined`). -/
structure DomNode where
  isHTMLElement : Bool
  slot : String
  dataPosition : Option String
  dataNormal : Option String
  deriving DecidableEq

/-- `node.slot.indexOf('hotspot') === 0`: the slot string starts with the
literal prefix `hotspot` (stated over the underlying character lists). -/
def slotIsHotspot (s : String) : Bool :=
  "hotspot".data.isPrefixOf s.data

/-- Modelled from the spec: the `Hotspot` class
(`three-components/Hotspot.js`) is not part of the sources under
verification; per the spec it carries a name, a position/normal seed read
once from the declaring node's data attributes, a reference count that
starts at 1 on construction, and an overlay element. The `id` field
models JS object identity (which heap object this is). -/
structure Hotspot where
  id : ℕ
  name : String
  position : Option String
  normal : Option String
  referenceCount : ℕ
  deriving DecidableEq

/-- Modelled from the spec: `new Hotspot(config)` seeds name, position and
normal from the configuration and starts the reference count at 1. -/
def Hotspot.make (id : ℕ) (name : String) (position normal : Option String) : Hotspot :=
  ⟨id, name, position, normal, 1⟩

/-- Modelled from the spec: `hotspot.increment()` raises the reference
count by one. -/
def Hotspot.increment (h : Hotspot) : Hotspot :=
  { h with referenceCount := h.referenceCount + 1 }

/-- Modelled from the spec: `hotspot.decrement()` lowers the reference
count by one and reports whether it reached zero. -/
def Hotspot.decrement (h : Hotspot) : Hotspot × Bool :=
  let h' := { h with referenceCount := h.referenceCount - 1 }
  (h', h'.referenceCount = 0)

/-- Modelled from the spec: `hotspot.updatePosition(p)` overwrites the
hotspot's position with the given value. -/
def Hotspot.updatePosition (h : Hotspot) (p : Option String) : Hotspot :=
  { h with position := p }

/-- Modelled from the spec: `hotspot.updateNormal(n)` overwrites the
hotspot's normal with the given value. -/
def Hotspot.updateNormal (h : Hotspot) (n : Option String) : Hotspot :=
  { h with normal := n }

/-- The `$hotspotMap` registry: a JS `Map<string, Hotspot>` modelled as an
insertion-ordered association list. -/
def Registry : Type := List (String × Hotspot)

instance : DecidableEq Registry := by
  unfold Registry
  infer_instance

/-- `Map.prototype.get`. -/
def Registry.get (k : String) : Registry → Option Hotspot
  | [] => none
  | (k', h) :: rest => if k' = k then some h else Registry.get k rest

/-- `Map.prototype.set`: overwrite the existing entry, else append. -/
def Registry.set (k : String) (v : Hotspot) : Registry → Registry
  | [] => [(k, v)]
  | (k', h) :: rest =>
      if k' = k then (k, v) :: rest else (k', h) :: Registry.set k v rest

/-- `Map.prototype.delete`: drop the entry keyed `k` (a JS `Map` holds at
most one entry per key, so dropping every match is the same thing). -/
def Registry.del (k : String) : Registry → Registry
  | [] => []
  | (k', h) :: rest =>
      if k' = k then Registry.del k rest else (k', h) :: Registry.del k rest

/-- The keys currently present in the registry. -/
def Registry.keys (r : Registry) : List String :=
  r.map Prod.fst

/-- The mutable state of one viewer instance, as far as the mixin touches
it: the registry, the scene collaborator's hotspot membership
(`scene.model`), the overlay renderer's DOM children
(`domElement.appendChild`), the scene's dirty flag, the number of
`$needsRender` requests issued to the host, and the allocator for fresh
JS object identities. -/
structure ViewerState where
  hotspotMap : Registry
  modelHotspots : List ℕ
  overlayChildren : List ℕ
  isDirty : Bool
  renderRequests : ℕ
  nextId : ℕ
  deriving DecidableEq

/-- A freshly constructed viewer: empty registry, nothing attached,
scene not dirty. -/
def ViewerState.initial : ViewerState :=
  ⟨[], [], [], false, 0, 0⟩

/-- `$addHotspot(node)`: ignore nodes that are not elements with a slot
beginning in `hotspot`; increment an existing hotspot of the same slot
name; otherwise construct a hotspot from the node's data attributes,
register it under the full slot string, attach it to the scene's model
and its element to the overlay container; in either eligible case mark
the scene dirty. -/
def addHotspot (st : ViewerState) (node : DomNode) : ViewerState :=
  if ¬(node.isHTMLElement ∧ slotIsHotspot node.slot) then st
  else
    match Registry.get node.slot st.hotspotMap with
    | some h =>
        { st with
          hotspotMap := Registry.set node.slot h.increment st.hotspotMap
          isDirty := true }
    | none =>
        let h := Hotspot.make st.nextId node.slot node.dataPosition node.dataNormal
        { st with
          hotspotMap := Registry.set node.slot h st.hotspotMap
          modelHotspots := st.modelHotspots ++ [h.id]
          overlayChildren := st.overlayChildren ++ [h.id]
          isDirty := true
          nextId := st.nextId + 1 }

/-- `$removeHotspot(node)`: ignore non-elements and nodes whose slot has
no registered hotspot; otherwise decrement the hotspot's reference count,
detaching it from the model and deleting it from the registry when the
count reaches zero, and mark the scene dirty either way. -/
def removeHotspot (st : ViewerState) (node : DomNode) : ViewerState :=
  if ¬node.isHTMLElement then st
  else
    match Registry.get node.slot st.hotspotMap with
    | none => st
    | some h =>
        let d := h.decrement
        if d.2 then
          { st with
            hotspotMap := Registry.del node.slot st.hotspotMap
            modelHotspots := st.modelHotspots.filter (fun i => i ≠ h.id)
            isDirty := true }
        else
          { st with
            hotspotMap := Registry.set node.slot d.1 st.hotspotMap
            isDirty := true }

/-- `HotspotConfiguration`: the argument of the public `updateHotspot`. -/
structure HotspotConfiguration where
  name : String
  position : Option String
  normal : Option String
  deriving DecidableEq

/-- Public `updateHotspot(config)`: look the hotspot up by name, silently
return when absent, otherwise overwrite its position and normal. -/
def updateHotspot (st : ViewerState) (config : HotspotConfiguration) : ViewerState :=
  match Registry.get config.name st.hotspotMap with
  | none => st
  | some h =>
      { st with
        hotspotMap :=
          Registry.set config.name
            ((h.updatePosition config.position).updateNormal config.normal)
            st.hotspotMap }

/-- A `MutationRecord` as the `$mutationCallback` sees it: whether the
delivered value really is a DOM `MutationRecord` (ShadyDOM delivers bare
`{addedNodes, removedNodes}` objects), its `type`, and the added/removed
node lists. -/
structure MutationRecord where
  isMutationRecord : Bool
  type : String
  addedNodes : List DomNode
  removedNodes : List DomNode
  deriving DecidableEq

/-- The guard in `$mutationCallback`:
`!(mutation instanceof MutationRecord) || mutation.type === 'childList'`. -/
def MutationRecord.processed (m : MutationRecord) : Bool :=
  !m.isMutationRecord || decide (m.type = "childList")

/-- One observable step taken while a batch of mutations is processed:
a node handed to `$addHotspot`, a node handed to `$removeHotspot`, or a
`$needsRender()` request to the host. -/
inductive MutationEvent where
  | added (node : DomNode)
  | removed (node : DomNode)
  | renderRequested
  deriving DecidableEq

def MutationEvent.isAdded : MutationEvent → Bool
  | .added _ => true
  | _ => false

def MutationEvent.isRemoved : MutationEvent → Bool
  | .removed _ => true
  | _ => false

def MutationEvent.isRenderRequest : MutationEvent → Bool
  | .renderRequested => true
  | _ => false

/-- Processing of a single mutation record inside `$mutationCallback`:
when the guard passes, every added node goes through `$addHotspot`, then
every removed node through `$removeHotspot`, then `$needsRender()` is
requested once. The second component logs the events in order. -/
def processRecord (acc : ViewerState × List MutationEvent) (m : MutationRecord) :
    ViewerState × List MutationEvent :=
  if m.processed then
    let a :=
      m.addedNodes.foldl
        (fun acc n => (addHotspot acc.1 n, acc.2 ++ [MutationEvent.added n])) acc
    let r :=
      m.removedNodes.foldl
        (fun acc n => (removeHotspot acc.1 n, acc.2 ++ [MutationEvent.removed n])) a
    ({ r.1 with renderRequests := r.1.renderRequests + 1 },
      r.2 ++ [MutationEvent.renderRequested])
  else acc

/-- `$mutationCallback(mutations)`: fold over the delivered batch,
returning the final state and the ordered event log. -/
def mutationCallback (st : ViewerState) (mutations : List MutationRecord) :
    ViewerState × List MutationEvent :=
  mutations.foldl processRecord (st, [])

/-- The events contributed by one record, in order: its adds, then its
removes, then one render request — or nothing when the guard rejects it. -/
def recordTrace (m : MutationRecord) : List MutationEvent :=
  if m.processed then
    m.addedNodes.map MutationEvent.added ++ m.removedNodes.map MutationEvent.removed ++
      [MutationEvent.renderRequested]
  else []

/-- Every added-node event in the trace occurs strictly before every
removed-node event. -/
def addsBeforeRemoves (tr : List MutationEvent) : Prop :=
  ∀ i j : Fin tr.length,
    (tr.get i).isAdded = true → (tr.get j).isRemoved = true → (i : ℕ) < (j : ℕ)

instance (tr : List MutationEvent) : Decidable (addsBeforeRemoves tr) := by
  unfold addsBeforeRemoves
  infer_instance

/-- Number of `$needsRender` requests recorded in a trace. -/
def renderRequestCount (tr : List MutationEvent) : ℕ :=
  tr.countP MutationEvent.isRenderRequest

/-- The camera object handed back by `scene.getCamera()`, restricted to
what the module reads from it. -/
structure Camera where
  position : Vector3
  deriving DecidableEq

/-- One collaborator call made during `$tick`. -/
inductive FrameEvent where
  | hotspotsUpdated (cameraPosition : Vector3)
  | overlayRendered (camera : Camera)
  deriving DecidableEq

def FrameEvent.isOverlayRender : FrameEvent → Bool
  | .overlayRendered _ => true
  | _ => false

/-- The state `$tick` reads and drives: the scene's dirty flag and the
ordered log of `model.updateHotspots` / overlay `render` calls. -/
structure FrameState where
  isDirty : Bool
  frameLog : List FrameEvent
  deriving DecidableEq

/-- `$tick(time, delta)`: when the scene is dirty, call
`scene.model.updateHotspots(camera.position)` and then render the overlay
with the scene and camera; otherwise do nothing. The resetting of the
dirty flag is modelled from the spec: the flag is cleared by the external
scene collaborator once the per-frame update has been performed. -/
def tick (camera : Camera) (st : FrameState) : FrameState :=
  if st.isDirty then
    { isDirty := false
      frameLog := st.frameLog ++
        [FrameEvent.hotspotsUpdated camera.position, FrameEvent.overlayRendered camera] }
  else st

/-- A sequence of render ticks (one camera value per tick). -/
def runTicks (cameras : List Camera) (st : FrameState) : FrameState :=
  cameras.foldl (fun s c => tick c s) st

/-- Overlay renders performed so far. -/
def overlayRenderCount (st : FrameState) : ℕ :=
  st.frameLog.countP FrameEvent.isOverlayRender

/-- A ray-test hit as returned by `scene.positionAndNormalFromPoint`:
world-space position and normal. -/
structure Hit where
  position : Vector3
  normal : Vector3

/-- The scene collaborator as consumed by `positionAndNormalFromPoint`:
viewport dimensions, the model's world matrix, and the ray hit-test
(taking a normalized device coordinate). -/
structure SceneModel where
  width : ℚ
  height : ℚ
  matrixWorld : Matrix (Fin 4) (Fin 4) ℚ
  raycast : ℚ × ℚ → Option Hit

/-- three.js `Vector3.prototype.applyMatrix4`: homogeneous transform with
perspective divide. Entry `m i j` is row `i`, column `j`. -/
def applyMatrix4 (m : Matrix (Fin 4) (Fin 4) ℚ) (v : Vector3) : Vector3 :=
  let w := 1 / (m 3 0 * v.x + m 3 1 * v.y + m 3 2 * v.z + m 3 3)
  ⟨(m 0 0 * v.x + m 0 1 * v.y + m 0 2 * v.z + m 0 3) * w,
    (m 1 0 * v.x + m 1 1 * v.y + m 1 2 * v.z + m 1 3) * w,
    (m 2 0 * v.x + m 2 1 * v.y + m 2 2 * v.z + m 2 3) * w⟩

/-- three.js `Matrix4.prototype.getInverse`: the matrix inverse, written
as the adjugate scaled by the reciprocal determinant (which is what the
cofactor-expansion code in three.js computes); a degenerate matrix yields
the identity, as in three.js. -/
def getInverse (m : Matrix (Fin 4) (Fin 4) ℚ) : Matrix (Fin 4) (Fin 4) ℚ :=
  if m.det = 0 then 1 else m.det⁻¹ • m.adjugate

/-- The `pixelPosition` computation in `positionAndNormalFromPoint`:
`set(pixelX / width, pixelY / height).multiplyScalar(2).subScalar(1)`
followed by `pixelPosition.y *= -1`. -/
def toNdc (pixelX pixelY width height : ℚ) : ℚ × ℚ :=
  let p := (pixelX / width, pixelY / height)
  let q := (p.1 * 2, p.2 * 2)
  let r := (q.1 - 1, q.2 - 1)
  (r.1, -r.2)

/-- The value returned from a successful pick: model-space position and
the (untransformed) world-space normal, as `toVector3D` plain values. -/
structure PickResult where
  position : Vector3
  normal : Vector3

/-- Public `positionAndNormalFromPoint(pixelX, pixelY)`: normalize the
pixel to device coordinates, delegate the ray test to the scene, and on a
hit map the world position into model space through the inverse world
matrix while passing the normal through unchanged. -/
def positionAndNormalFromPoint (scene : SceneModel) (pixelX pixelY : ℚ) :
    Option PickResult :=
  let ndc := toNdc pixelX pixelY scene.width scene.height
  match scene.raycast ndc with
  | none => none
  | some hit =>
      let worldToModel := getInverse scene.matrixWorld
      some ⟨applyMatrix4 worldToModel hit.position, hit.normal⟩

/-- One add/remove notification for an eligible node of a fixed slot
name; the payload records the node's data attributes. -/
inductive RefOp where
  | add (dataPosition dataNormal : Option String)
  | remove (dataPosition dataNormal : Option String)
  deriving DecidableEq

def RefOp.isAdd : RefOp → Bool
  | .add _ _ => true
  | _ => false

/-- Deliver one notification for an eligible element whose slot is
`name`. -/
def applyRefOp (name : String) (st : ViewerState) (op : RefOp) : ViewerState :=
  match op with
  | .add p n => addHotspot st ⟨true, name, p, n⟩
  | .remove p n => removeHotspot st ⟨true, name, p, n⟩

/-- Deliver a whole sequence of notifications for slot `name` to a fresh
viewer. -/
def runRefOps (name : String) (ops : List RefOp) : ViewerState :=
  ops.foldl (applyRefOp name) ViewerState.initial

/-- The reference count as the registry steps it: `+1` per add, `−1` per
remove, truncated at zero (a remove finding no hotspot is a no-op). -/
def stepCount (c : ℕ) : RefOp → ℕ
  | .add _ _ => c + 1
  | .remove _ _ => c - 1

/-- The per-step-clamped reference count of a notification sequence. -/
def clampCount (ops : List RefOp) : ℕ :=
  ops.foldl stepCount 0

def countAdds (ops : List RefOp) : ℕ :=
  ops.countP RefOp.isAdd

def countRemoves (ops : List RefOp) : ℕ :=
  ops.countP (fun op => !op.isAdd)

/-- The reference count the registry currently holds for `name`
(0 when no hotspot with that name exists). -/
def refCountOf (st : ViewerState) (name : String) : ℕ :=
  (Registry.get name st.hotspotMap).elim 0 Hotspot.referenceCount

/-- How many registry entries carry the key `name`. -/
def Registry.countName (name : String) (r : Registry) : ℕ :=
  r.countP (fun e => decide (e.1 = name))

/-- The identity of the hotspot registered under `name`, when any. -/
def hotspotIdOf (st : ViewerState) (name : String) : Option ℕ :=
  (Registry.get name st.hotspotMap).map Hotspot.id

/-! ## Registry lemmas -/

theorem Registry.get_set_self (k : String) (v : Hotspot) (r : Registry) :
    Registry.get k (Registry.set k v r) = some v := by
  induction r with
  | nil => simp [Registry.get, Registry.set]
  | cons e rest ih =>
      obtain ⟨k', h⟩ := e
      by_cases hk : k' = k <;> simp [Registry.get, Registry.set, hk, ih]

theorem Registry.get_del_self (k : String) (r : Registry) :
    Registry.get k (Registry.del k r) = none := by
  induction r with
  | nil => simp [Registry.get, Registry.del]
  | cons e rest ih =>
      obtain ⟨k', h⟩ := e
      by_cases hk : k' = k <;> simp [Registry.get, Registry.del, hk, ih]

theorem Registry.keys_set_of_get_some (k : String) (v : Hotspot) (r : Registry)
    (hget : (Registry.get k r).isSome) :
    (Registry.set k v r).keys = r.keys := by
  induction r with
  | nil => simp [Registry.get] at hget
  | cons e rest ih =>
      obtain ⟨k', h⟩ := e
      by_cases hk : k' = k
      · subst hk
        simp [Registry.set, Registry.keys]
      · simp [Registry.get, hk] at hget
        simp [Registry.set, Registry.keys, hk] at ih ⊢
        exact ih hget

theorem Registry.get_eq_none_of_keys_good (k : String) (r : Registry)
    (hgood : ∀ s ∈ r.keys, slotIsHotspot s = true) (hk : slotIsHotspot k = false) :
    Registry.get k r = none := by
  induction r with
  | nil => rfl
  | cons e rest ih =>
      obtain ⟨k', h⟩ := e
      have hk' : slotIsHotspot k' = true := hgood k' (by simp [Registry.keys])
      have hne : k' ≠ k := by
        intro hkk
        rw [hkk, hk] at hk'
        cases hk'
      simp only [Registry.get, if_neg hne]
      exact ih fun s hs => hgood s (by simp [Registry.keys] at hs ⊢; exact Or.inr hs)

/-! ## Characterizations of the lifecycle handlers -/

theorem addHotspot_not_eligible (st : ViewerState) (node : DomNode)
    (hnot : ¬(node.isHTMLElement = true ∧ slotIsHotspot node.slot = true)) :
    addHotspot st node = st := by
  simp only [addHotspot, if_pos hnot]

theorem addHotspot_new (st : ViewerState) (node : DomNode)
    (helem : node.isHTMLElement = true) (hslot : slotIsHotspot node.slot = true)
    (hget : Registry.get node.slot st.hotspotMap = none) :
    addHotspot st node =
      { st with
        hotspotMap := Registry.set node.slot
          (Hotspot.make st.nextId node.slot node.dataPosition node.dataNormal) st.hotspotMap
        modelHotspots := st.modelHotspots ++ [st.nextId]
        overlayChildren := st.overlayChildren ++ [st.nextId]
        isDirty := true
        nextId := st.nextId + 1 } := by
  have hcond : ¬¬(node.isHTMLElement = true ∧ slotIsHotspot node.slot = true) := by
    simp [helem, hslot]
  simp only [addHotspot, if_neg hcond, hget, Hotspot.make]

theorem addHotspot_existing (st : ViewerState) (node : DomNode) (h : Hotspot)
    (helem : node.isHTMLElement = true) (hslot : slotIsHotspot node.slot = true)
    (hget : Registry.get node.slot st.hotspotMap = some h) :
    addHotspot st node =
      { st with
        hotspotMap := Registry.set node.slot h.increment st.hotspotMap
        isDirty := true } := by
  have hcond : ¬¬(node.isHTMLElement = true ∧ slotIsHotspot node.slot = true) := by
    simp [helem, hslot]
  simp only [addHotspot, if_neg hcond, hget]

theorem removeHotspot_not_element (st : ViewerState) (node : DomNode)
    (helem : node.isHTMLElement = false) :
    removeHotspot st node = st := by
  simp [removeHotspot, helem]

theorem removeHotspot_absent (st : ViewerState) (node : DomNode)
    (hget : Registry.get node.slot st.hotspotMap = none) :
    removeHotspot st node = st := by
  cases helem : node.isHTMLElement with
  | false => simp [removeHotspot, helem]
  | true => simp [removeHotspot, helem, hget]

theorem removeHotspot_present (st : ViewerState) (node : DomNode) (h : Hotspot)
    (helem : node.isHTMLElement = true)
    (hget : Registry.get node.slot st.hotspotMap = some h) :
    removeHotspot st node =
      if h.referenceCount - 1 = 0 then
        { st with
          hotspotMap := Registry.del node.slot st.hotspotMap
          modelHotspots := st.modelHotspots.filter (fun i => i ≠ h.id)
          isDirty := true }
      else
        { st with
          hotspotMap := Registry.set node.slot
            { h with referenceCount := h.referenceCount - 1 } st.hotspotMap
          isDirty := true } := by
  simp only [removeHotspot, helem, hget, Hotspot.decrement]
  by_cases hz : h.referenceCount - 1 = 0 <;> simp [hz]

/-! ## Claim theorems: lifecycle handlers -/

/-- C2: `$addHotspot` ignores every node that is not an element whose
slot begins with `hotspot`, leaving the whole viewer state untouched; for
an eligible node whose slot is not yet registered it builds a hotspot
from the node's `data-position` / `data-normal` attributes (read at add
time), registers it under the full slot string, attaches it to the
scene's model, appends its element to the overlay container, and marks
the scene dirty. -/
theorem addHotspot_cases (st : ViewerState) (node : DomNode) :
    (¬(node.isHTMLElement = true ∧ slotIsHotspot node.slot = true) →
        addHotspot st node = st)
    ∧ (node.isHTMLElement = true → slotIsHotspot node.slot = true →
        Registry.get node.slot st.hotspotMap = none →
        Registry.get node.slot (addHotspot st node).hotspotMap =
            some ⟨st.nextId, node.slot, node.dataPosition, node.dataNormal, 1⟩
          ∧ (addHotspot st node).modelHotspots = st.modelHotspots ++ [st.nextId]
          ∧ (addHotspot st node).overlayChildren = st.overlayChildren ++ [st.nextId]
          ∧ (addHotspot st node).isDirty = true
          ∧ (addHotspot st node).renderRequests = st.renderRequests) := by
  constructor
  · exact addHotspot_not_eligible st node
  · intro helem hslot hget
    rw [addHotspot_new st node helem hslot hget]
    exact ⟨Registry.get_set_self node.slot _ st.hotspotMap, rfl, rfl, rfl, rfl⟩

/-- C2 witness: an ineligible node (a text node) is a no-op, and an
eligible node with a fresh slot name registers a new hotspot seeded from
its data attributes, attaches it to model and overlay, and dirties the
scene. -/
theorem addHotspot_cases_witness :
    (addHotspot ViewerState.initial ⟨false, "hotspot-a", none, none⟩ = ViewerState.initial)
    ∧ (Registry.get "hotspot-a"
          (addHotspot ViewerState.initial
            ⟨true, "hotspot-a", some "0 0 0", some "0 1 0"⟩).hotspotMap =
            some ⟨0, "hotspot-a", some "0 0 0", some "0 1 0", 1⟩
        ∧ (addHotspot ViewerState.initial
            ⟨true, "hotspot-a", some "0 0 0", some "0 1 0"⟩).modelHotspots = [] ++ [0]
        ∧ (addHotspot ViewerState.initial
            ⟨true, "hotspot-a", some "0 0 0", some "0 1 0"⟩).overlayChildren = [] ++ [0]
        ∧ (addHotspot ViewerState.initial
            ⟨true, "hotspot-a", some "0 0 0", some "0 1 0"⟩).isDirty = true
        ∧ (addHotspot ViewerState.initial
            ⟨true, "hotspot-a", some "0 0 0", some "0 1 0"⟩).renderRequests = 0) :=
  ⟨(addHotspot_cases ViewerState.initial ⟨false, "hotspot-a", none, none⟩).1 (by decide),
    (addHotspot_cases ViewerState.initial
        ⟨true, "hotspot-a", some "0 0 0", some "0 1 0"⟩).2 (by decide) (by decide) (by decide)⟩

/-- C3: `$removeHotspot` ignores non-elements, ignores elements whose
slot has no registered hotspot (in particular, in any state whose
registry only holds `hotspot…` keys, every element whose slot does not
begin with `hotspot`), and otherwise decrements the matching hotspot's
reference count — deleting it from the registry and detaching it from
the scene's model exactly when the count reaches zero — and marks the
scene dirty whether or not the count reached zero. -/
theorem removeHotspot_cases (st : ViewerState) (node : DomNode) :
    (node.isHTMLElement = false → removeHotspot st node = st)
    ∧ ((∀ s ∈ st.hotspotMap.keys, slotIsHotspot s = true) →
        slotIsHotspot node.slot = false → removeHotspot st node = st)
    ∧ (Registry.get node.slot st.hotspotMap = none → removeHotspot st node = st)
    ∧ ∀ h : Hotspot, Registry.get node.slot st.hotspotMap = some h →
        node.isHTMLElement = true →
        (h.referenceCount = 1 →
            Registry.get node.slot (removeHotspot st node).hotspotMap = none
            ∧ (removeHotspot st node).modelHotspots =
                st.modelHotspots.filter (fun i => i ≠ h.id)
            ∧ (removeHotspot st node).isDirty = true)
        ∧ (2 ≤ h.referenceCount →
            Registry.get node.slot (removeHotspot st node).hotspotMap =
              some ⟨h.id, h.name, h.position, h.normal, h.referenceCount - 1⟩
            ∧ (removeHotspot st node).modelHotspots = st.modelHotspots
            ∧ (removeHotspot st node).isDirty = true) := by
  refine ⟨?_, ?_, ?_, ?_⟩
  · exact removeHotspot_not_element st node
  · intro hgood hslot
    exact removeHotspot_absent st node
      (Registry.get_eq_none_of_keys_good node.slot st.hotspotMap hgood hslot)
  · exact removeHotspot_absent st node
  · intro h hget helem
    rw [removeHotspot_present st node h helem hget]
    constructor
    · intro hone
      have hz : h.referenceCount - 1 = 0 := by omega
      rw [if_pos hz]
      exact ⟨Registry.get_del_self node.slot st.hotspotMap, rfl, rfl⟩
    · intro htwo
      have hz : ¬(h.referenceCount - 1 = 0) := by omega
      rw [if_neg hz]
      exact ⟨Registry.get_set_self node.slot _ st.hotspotMap, rfl, rfl⟩

/-- C3 witness: removing a text node and removing an element with an
unregistered slot are no-ops; removing one of two declarations of a
shared name keeps the hotspot with its count reduced to one, and
removing the last declaration deletes it and detaches it from the model;
both removals dirty the scene. -/
theorem removeHotspot_cases_witness :
    (removeHotspot ViewerState.initial ⟨false, "hotspot-a", none, none⟩ = ViewerState.initial)
    ∧ (removeHotspot ViewerState.initial ⟨true, "other", none, none⟩ = ViewerState.initial)
    ∧ (Registry.get "hotspot-a"
          (removeHotspot ⟨[("hotspot-a", ⟨0, "hotspot-a", none, none, 1⟩)], [0], [0], false, 0, 1⟩
            ⟨true, "hotspot-a", none, none⟩).hotspotMap = none
        ∧ (removeHotspot ⟨[("hotspot-a", ⟨0, "hotspot-a", none, none, 1⟩)], [0], [0], false, 0, 1⟩
            ⟨true, "hotspot-a", none, none⟩).modelHotspots =
            [0].filter (fun i => i ≠ (0 : ℕ))
        ∧ (removeHotspot ⟨[("hotspot-a", ⟨0, "hotspot-a", none, none, 1⟩)], [0], [0], false, 0, 1⟩
            ⟨true, "hotspot-a", none, none⟩).isDirty = true)
    ∧ (Registry.get "hotspot-a"
          (removeHotspot ⟨[("hotspot-a", ⟨0, "hotspot-a", none, none, 2⟩)], [0], [0], false, 0, 1⟩
            ⟨true, "hotspot-a", none, none⟩).hotspotMap =
            some ⟨0, "hotspot-a", none, none, 2 - 1⟩
        ∧ (removeHotspot ⟨[("hotspot-a", ⟨0, "hotspot-a", none, none, 2⟩)], [0], [0], false, 0, 1⟩
            ⟨true, "hotspot-a", none, none⟩).modelHotspots = [0]
        ∧ (removeHotspot ⟨[("hotspot-a", ⟨0, "hotspot-a", none, none, 2⟩)], [0], [0], false, 0, 1⟩
            ⟨true, "hotspot-a", none, none⟩).isDirty = true) :=
  ⟨(removeHotspot_cases ViewerState.initial ⟨false, "hotspot-a", none, none⟩).1 rfl,
    (removeHotspot_cases ViewerState.initial ⟨true, "other", none, none⟩).2.1
      (by decide) (by decide),
    ((removeHotspot_cases
        ⟨[("hotspot-a", ⟨0, "hotspot-a", none, none, 1⟩)], [0], [0], false, 0, 1⟩
        ⟨true, "hotspot-a", none, none⟩).2.2.2
        ⟨0, "hotspot-a", none, none, 1⟩ (by decide) rfl).1 rfl,
    ((removeHotspot_cases
        ⟨[("hotspot-a", ⟨0, "hotspot-a", none, none, 2⟩)], [0], [0], false, 0, 1⟩
        ⟨true, "hotspot-a", none, none⟩).2.2.2
        ⟨0, "hotspot-a", none, none, 2⟩ (by decide) rfl).2 (by decide)⟩

/-- C8: `updateHotspot` with an unknown name leaves the state untouched
(and, being a total function, throws nothing); with a registered name it
overwrites exactly the position and the normal of the shared hotspot
object — identity, name and reference count survive — so every
subsequent read sees the new values. -/
theorem updateHotspot_lookup (st : ViewerState) (config : HotspotConfiguration) :
    (Registry.get config.name st.hotspotMap = none → updateHotspot st config = st)
    ∧ ∀ h : Hotspot, Registry.get config.name st.hotspotMap = some h →
        Registry.get config.name (updateHotspot st config).hotspotMap =
          some ⟨h.id, h.name, config.position, config.normal, h.referenceCount⟩ := by
  constructor
  · intro hget
    simp only [updateHotspot, hget]
  · intro h hget
    simp only [updateHotspot, hget, Hotspot.updatePosition, Hotspot.updateNormal]
    exact Registry.get_set_self config.name _ st.hotspotMap

/-- C8 witness: updating the unknown name `hotspot-b` is a no-op, and
updating the registered `hotspot-a` makes reads return exactly the new
position and normal on the same hotspot object. -/
theorem updateHotspot_lookup_witness :
    (updateHotspot
        ⟨[("hotspot-a", ⟨0, "hotspot-a", none, none, 1⟩)], [0], [0], false, 0, 1⟩
        ⟨"hotspot-b", some "1 2 3", some "0 1 0"⟩ =
      ⟨[("hotspot-a", ⟨0, "hotspot-a", none, none, 1⟩)], [0], [0], false, 0, 1⟩)
    ∧ Registry.get "hotspot-a"
        (updateHotspot
          ⟨[("hotspot-a", ⟨0, "hotspot-a", none, none, 1⟩)], [0], [0], false, 0, 1⟩
          ⟨"hotspot-a", some "1 2 3", some "0 1 0"⟩).hotspotMap =
        some ⟨0, "hotspot-a", some "1 2 3", some "0 1 0", 1⟩ :=
  ⟨(updateHotspot_lookup
      ⟨[("hotspot-a", ⟨0, "hotspot-a", none, none, 1⟩)], [0], [0], false, 0, 1⟩
      ⟨"hotspot-b", some "1 2 3", some "0 1 0"⟩).1 (by decide),
    (updateHotspot_lookup
      ⟨[("hotspot-a", ⟨0, "hotspot-a", none, none, 1⟩)], [0], [0], false, 0, 1⟩
      ⟨"hotspot-a", some "1 2 3", some "0 1 0"⟩).2
      ⟨0, "hotspot-a", none, none, 1⟩ (by decide)⟩

/-- C10 (implicit): `updateHotspot` never touches the scene's dirty
flag, never requests a render, and leaves the registry's membership —
and the model/overlay attachments — exactly as they were; only the
hotspot's stored position/normal can change, so the overlay shows the
move only after something else dirties the scene. -/
theorem updateHotspot_frame_inert (st : ViewerState) (config : HotspotConfiguration) :
    (updateHotspot st config).isDirty = st.isDirty
    ∧ (updateHotspot st config).renderRequests = st.renderRequests
    ∧ Registry.keys (updateHotspot st config).hotspotMap = Registry.keys st.hotspotMap
    ∧ (updateHotspot st config).modelHotspots = st.modelHotspots
    ∧ (updateHotspot st config).overlayChildren = st.overlayChildren := by
  cases hget : Registry.get config.name st.hotspotMap with
  | none =>
      have hstep : updateHotspot st config = st := by simp only [updateHotspot, hget]
      rw [hstep]
      exact ⟨rfl, rfl, rfl, rfl, rfl⟩
  | some h =>
      have hstep : updateHotspot st config =
          { st with
            hotspotMap := Registry.set config.name
              ((h.updatePosition config.position).updateNormal config.normal)
              st.hotspotMap } := by
        simp only [updateHotspot, hget]
      rw [hstep]
      refine ⟨rfl, rfl, ?_, rfl, rfl⟩
      exact Registry.keys_set_of_get_some config.name _ st.hotspotMap (by rw [hget]; rfl)

/-! ## Claim theorems: the reference-counted registry (single name) -/

/-- What a fresh viewer driven only by notifications for the slot `name`
can look like: either no hotspot exists (count 0, nothing attached to
the model) or exactly one entry for `name` exists, its reference count
agreeing with the per-step-clamped count and its object attached to the
model. -/
def SingleNameInv (name : String) (st : ViewerState) (c : ℕ) : Prop :=
  (c = 0 ∧ st.hotspotMap = [] ∧ st.modelHotspots = [])
  ∨ (0 < c ∧ ∃ h : Hotspot,
      st.hotspotMap = [(name, h)] ∧ h.referenceCount = c ∧ h.name = name
      ∧ st.modelHotspots = [h.id])

theorem singleNameInv_step (name : String) (hname : slotIsHotspot name = true)
    (st : ViewerState) (c : ℕ) (op : RefOp) (hinv : SingleNameInv name st c) :
    SingleNameInv name (applyRefOp name st op) (stepCount c op) := by
  cases op with
  | add p n =>
      show SingleNameInv name (addHotspot st ⟨true, name, p, n⟩) (c + 1)
      rcases hinv with ⟨hc, hmap, hmodel⟩ | ⟨hc, h, hmap, hcount, hn, hmodel⟩
      · have hget : Registry.get name st.hotspotMap = none := by rw [hmap]; rfl
        rw [addHotspot_new st ⟨true, name, p, n⟩ rfl hname hget]
        refine Or.inr ⟨Nat.succ_pos c, Hotspot.make st.nextId name p n, ?_, ?_, rfl, ?_⟩
        · rw [hmap]; rfl
        · simp [Hotspot.make, hc]
        · rw [hmodel]; rfl
      · have hget : Registry.get name st.hotspotMap = some h := by
          rw [hmap]; simp [Registry.get]
        rw [addHotspot_existing st ⟨true, name, p, n⟩ h rfl hname hget]
        refine Or.inr ⟨Nat.succ_pos c, h.increment, ?_, ?_, ?_, ?_⟩
        · rw [hmap]; simp [Registry.set]
        · simp [Hotspot.increment, hcount]
        · exact hn
        · exact hmodel
  | remove p n =>
      show SingleNameInv name (removeHotspot st ⟨true, name, p, n⟩) (c - 1)
      rcases hinv with ⟨hc, hmap, hmodel⟩ | ⟨hc, h, hmap, hcount, hn, hmodel⟩
      · have hget : Registry.get name st.hotspotMap = none := by rw [hmap]; rfl
        rw [removeHotspot_absent st ⟨true, name, p, n⟩ hget]
        exact Or.inl ⟨by omega, hmap, hmodel⟩
      · have hget : Registry.get name st.hotspotMap = some h := by
          rw [hmap]; simp [Registry.get]
        rw [removeHotspot_present st ⟨true, name, p, n⟩ h rfl hget]
        by_cases hz : h.referenceCount - 1 = 0
        · rw [if_pos hz]
          refine Or.inl ⟨by omega, ?_, ?_⟩
          · rw [hmap]; simp [Registry.del]
          · rw [hmodel]; simp
        · rw [if_neg hz]
          refine Or.inr ⟨by omega, { h with referenceCount := h.referenceCount - 1 },
            ?_, show h.referenceCount - 1 = c - 1 by omega, hn, ?_⟩
          · rw [hmap]; simp [Registry.set]
          · rw [hmodel]

theorem singleNameInv_fold (name : String) (hname : slotIsHotspot name = true) :
    ∀ (ops : List RefOp) (st : ViewerState) (c : ℕ),
      SingleNameInv name st c →
      SingleNameInv name (ops.foldl (applyRefOp name) st) (ops.foldl stepCount c)
  | [], _, _, hinv => hinv
  | op :: ops, st, c, hinv =>
      singleNameInv_fold name hname ops _ _ (singleNameInv_step name hname st c op hinv)

theorem singleNameInv_run (name : String) (hname : slotIsHotspot name = true)
    (ops : List RefOp) :
    SingleNameInv name (runRefOps name ops) (clampCount ops) :=
  singleNameInv_fold name hname ops ViewerState.initial 0 (Or.inl ⟨rfl, rfl, rfl⟩)

/-- C1 counterexample: deliver add, remove, remove, add for the eligible
name `hotspot-a`. The registry then holds a hotspot with reference
count 1, while `#adds − #removes` clamped to ≥ 0 is `2 − 2 = 0` — so
the count does not equal the clamped difference — and the surviving
hotspot is a different object instance (id 1) from the one the first
add of that name created (id 0). -/
theorem refcount_not_adds_sub_removes :
    refCountOf (runRefOps "hotspot-a"
        [RefOp.add none none, RefOp.remove none none,
          RefOp.remove none none, RefOp.add none none]) "hotspot-a" = 1
    ∧ countAdds
          [RefOp.add none none, RefOp.remove none none,
            RefOp.remove none none, RefOp.add none none] -
        countRemoves
          [RefOp.add none none, RefOp.remove none none,
            RefOp.remove none none, RefOp.add none none] = 0
    ∧ refCountOf (runRefOps "hotspot-a"
          [RefOp.add none none, RefOp.remove none none,
            RefOp.remove none none, RefOp.add none none]) "hotspot-a" ≠
        countAdds
            [RefOp.add none none, RefOp.remove none none,
              RefOp.remove none none, RefOp.add none none] -
          countRemoves
            [RefOp.add none none, RefOp.remove none none,
              RefOp.remove none none, RefOp.add none none]
    ∧ hotspotIdOf (runRefOps "hotspot-a" [RefOp.add none none]) "hotspot-a" = some 0
    ∧ hotspotIdOf (runRefOps "hotspot-a"
          [RefOp.add none none, RefOp.remove none none,
            RefOp.remove none none, RefOp.add none none]) "hotspot-a" = some 1 := by
  decide

/-- C1 (amended): for every sequence of add/remove notifications for
eligible nodes sharing one slot name, delivered to a fresh viewer, the
registry holds at most one entry for that name; its reference count
equals the adds-minus-removes count stepped with truncation at zero
(a remove arriving when no hotspot exists is a no-op); a hotspot exists
exactly while that stepped count is positive, and it is attached to the
scene's model exactly while it exists (destruction detaches it); and as
long as the count is positive a further add of the name keeps the very
same hotspot object instance. -/
theorem registry_refcount_clamped (name : String) (ops : List RefOp)
    (hname : slotIsHotspot name = true) :
    refCountOf (runRefOps name ops) name = clampCount ops
    ∧ Registry.countName name (runRefOps name ops).hotspotMap ≤ 1
    ∧ ((Registry.get name (runRefOps name ops).hotspotMap).isSome ↔ 0 < clampCount ops)
    ∧ (runRefOps name ops).modelHotspots =
        (Registry.get name (runRefOps name ops).hotspotMap).elim [] (fun h => [h.id])
    ∧ (∀ p n : Option String, 0 < clampCount ops →
        hotspotIdOf (runRefOps name (ops ++ [RefOp.add p n])) name =
          hotspotIdOf (runRefOps name ops) name) := by
  rcases singleNameInv_run name hname ops with ⟨hc, hmap, hmodel⟩ |
    ⟨hc, h, hmap, hcount, hn, hmodel⟩
  · have hget : Registry.get name (runRefOps name ops).hotspotMap = none := by
      rw [hmap]; rfl
    refine ⟨?_, ?_, ?_, ?_, ?_⟩
    · rw [refCountOf, hget, hc]; rfl
    · rw [hmap]; simp [Registry.countName]
    · rw [hget, hc]; simp
    · rw [hmodel, hget]; rfl
    · intro p n hpos
      omega
  · have hget : Registry.get name (runRefOps name ops).hotspotMap = some h := by
      rw [hmap]; simp [Registry.get]
    refine ⟨?_, ?_, ?_, ?_, ?_⟩
    · rw [refCountOf, hget]; exact hcount
    · rw [hmap]; simp [Registry.countName]
    · rw [hget]; simpa using hc
    · rw [hmodel, hget]; rfl
    · intro p n hpos
      have happ : runRefOps name (ops ++ [RefOp.add p n]) =
          addHotspot (runRefOps name ops) ⟨true, name, p, n⟩ := by
        unfold runRefOps
        rw [List.foldl_append]
        rfl
      rw [happ, addHotspot_existing (runRefOps name ops) ⟨true, name, p, n⟩ h rfl hname hget]
      unfold hotspotIdOf
      rw [hget]
      have : Registry.get name
          (Registry.set name h.increment (runRefOps name ops).hotspotMap) =
          some h.increment := Registry.get_set_self name h.increment _
      rw [this]
      rfl

/-- C1 witness: two adds then one remove of `hotspot-a` leave count 2−1
stepped to 1, one registry entry, a live hotspot attached to the model,
and a third add keeps the same object. -/
theorem registry_refcount_clamped_witness :
    refCountOf (runRefOps "hotspot-a"
        [RefOp.add none none, RefOp.add none none, RefOp.remove none none]) "hotspot-a" =
      clampCount [RefOp.add none none, RefOp.add none none, RefOp.remove none none]
    ∧ Registry.countName "hotspot-a"
        (runRefOps "hotspot-a"
          [RefOp.add none none, RefOp.add none none,
            RefOp.remove none none]).hotspotMap ≤ 1
    ∧ ((Registry.get "hotspot-a"
          (runRefOps "hotspot-a"
            [RefOp.add none none, RefOp.add none none,
              RefOp.remove none none]).hotspotMap).isSome ↔
        0 < clampCount [RefOp.add none none, RefOp.add none none, RefOp.remove none none])
    ∧ (runRefOps "hotspot-a"
          [RefOp.add none none, RefOp.add none none,
            RefOp.remove none none]).modelHotspots =
        (Registry.get "hotspot-a"
          (runRefOps "hotspot-a"
            [RefOp.add none none, RefOp.add none none,
              RefOp.remove none none]).hotspotMap).elim [] (fun h => [h.id])
    ∧ (∀ p n : Option String,
        0 < clampCount [RefOp.add none none, RefOp.add none none, RefOp.remove none none] →
        hotspotIdOf (runRefOps "hotspot-a"
            ([RefOp.add none none, RefOp.add none none, RefOp.remove none none] ++
              [RefOp.add p n])) "hotspot-a" =
          hotspotIdOf (runRefOps "hotspot-a"
            [RefOp.add none none, RefOp.add none none,
              RefOp.remove none none]) "hotspot-a") :=
  registry_refcount_clamped "hotspot-a"
    [RefOp.add none none, RefOp.add none none, RefOp.remove none none] (by decide)

/-! ## Claim theorems: frame synchronizer -/

theorem runTicks_of_not_dirty (cameras : List Camera) (st : FrameState)
    (hclean : st.isDirty = false) : runTicks cameras st = st := by
  induction cameras with
  | nil => rfl
  | cons c rest ih =>
      have hstep : tick c st = st := by simp [tick, hclean]
      show runTicks rest (tick c st) = st
      rw [hstep, ih]

/-- C4: `$tick` reads the scene's dirty flag; when it is clear nothing
happens (no hotspot recomputation, no overlay render); when it is set,
`model.updateHotspots` runs with the current camera's position and then
the overlay is rendered with that camera — exactly one extra overlay
render — and any number of further ticks change nothing until the flag
is set again. -/
theorem tick_dirty_gate (camera : Camera) (st : FrameState) :
    (st.isDirty = false → tick camera st = st)
    ∧ (st.isDirty = true →
        (tick camera st).frameLog = st.frameLog ++
            [FrameEvent.hotspotsUpdated camera.position, FrameEvent.overlayRendered camera]
          ∧ overlayRenderCount (tick camera st) = overlayRenderCount st + 1
          ∧ ∀ cameras : List Camera, runTicks cameras (tick camera st) = tick camera st) := by
  constructor
  · intro hclean
    simp [tick, hclean]
  · intro hdirty
    have hstep : tick camera st =
        { isDirty := false
          frameLog := st.frameLog ++
            [FrameEvent.hotspotsUpdated camera.position,
              FrameEvent.overlayRendered camera] } := by
      simp [tick, hdirty]
    refine ⟨by rw [hstep], ?_, ?_⟩
    · rw [hstep]
      simp [overlayRenderCount, FrameEvent.isOverlayRender]
    · intro cameras
      exact runTicks_of_not_dirty cameras _ (by rw [hstep])

/-- C4 witness: a clean tick is the identity; a dirty tick appends the
hotspot update and the overlay render and is then inert over two more
ticks. -/
theorem tick_dirty_gate_witness :
    (tick ⟨⟨0, 0, 0⟩⟩ ⟨false, []⟩ = ⟨false, []⟩)
    ∧ ((tick ⟨⟨1, 2, 3⟩⟩ ⟨true, []⟩).frameLog = [] ++
          [FrameEvent.hotspotsUpdated ⟨1, 2, 3⟩, FrameEvent.overlayRendered ⟨⟨1, 2, 3⟩⟩]
        ∧ overlayRenderCount (tick ⟨⟨1, 2, 3⟩⟩ ⟨true, []⟩) = overlayRenderCount ⟨true, []⟩ + 1
        ∧ ∀ cameras : List Camera,
            runTicks cameras (tick ⟨⟨1, 2, 3⟩⟩ ⟨true, []⟩) = tick ⟨⟨1, 2, 3⟩⟩ ⟨true, []⟩) :=
  ⟨(tick_dirty_gate ⟨⟨0, 0, 0⟩⟩ ⟨false, []⟩).1 rfl,
    (tick_dirty_gate ⟨⟨1, 2, 3⟩⟩ ⟨true, []⟩).2 rfl⟩

/-! ## Claim theorems: batch mutation processing -/

theorem addFold_snd (nodes : List DomNode) (acc : ViewerState × List MutationEvent) :
    (nodes.foldl (fun a n => (addHotspot a.1 n, a.2 ++ [MutationEvent.added n])) acc).2 =
      acc.2 ++ nodes.map MutationEvent.added := by
  induction nodes generalizing acc with
  | nil => simp
  | cons n ns ih => simp [ih]

theorem removeFold_snd (nodes : List DomNode) (acc : ViewerState × List MutationEvent) :
    (nodes.foldl (fun a n => (removeHotspot a.1 n, a.2 ++ [MutationEvent.removed n])) acc).2 =
      acc.2 ++ nodes.map MutationEvent.removed := by
  induction nodes generalizing acc with
  | nil => simp
  | cons n ns ih => simp [ih]

theorem processRecord_snd (m : MutationRecord) (acc : ViewerState × List MutationEvent) :
    (processRecord acc m).2 = acc.2 ++ recordTrace m := by
  by_cases hp : m.processed
  · simp only [processRecord, recordTrace, if_pos hp]
    rw [removeFold_snd, addFold_snd]
    simp
  · simp [processRecord, recordTrace, hp]

theorem mutationCallback_trace (mutations : List MutationRecord) (st : ViewerState) :
    (mutationCallback st mutations).2 = (mutations.map recordTrace).flatten := by
  suffices h : ∀ acc : ViewerState × List MutationEvent,
      (mutations.foldl processRecord acc).2 = acc.2 ++ (mutations.map recordTrace).flatten by
    simpa [mutationCallback] using h (st, [])
  induction mutations with
  | nil => intro acc; simp
  | cons m ms ih =>
      intro acc
      simp only [List.foldl_cons, List.map_cons, List.flatten]
      rw [ih, processRecord_snd, List.append_assoc]

theorem addsBeforeRemoves_append (l₁ l₂ : List MutationEvent)
    (h₁ : ∀ e ∈ l₁, e.isRemoved = false) (h₂ : ∀ e ∈ l₂, e.isAdded = false) :
    addsBeforeRemoves (l₁ ++ l₂) := by
  intro i j hadd hrem
  have hi : (i : ℕ) < l₁.length := by
    by_contra hge
    push_neg at hge
    have hsub : (i : ℕ) - l₁.length < l₂.length := by
      have := i.isLt
      simp only [List.length_append] at this
      omega
    have hget : (l₁ ++ l₂).get i = l₂.get ⟨(i : ℕ) - l₁.length, hsub⟩ := by
      rw [List.get_eq_getElem, List.get_eq_getElem]
      exact List.getElem_append_right hge
    rw [hget, h₂ _ (List.get_mem l₂ _ hsub)] at hadd
    cases hadd
  have hj : l₁.length ≤ (j : ℕ) := by
    by_contra hlt
    push_neg at hlt
    have hget : (l₁ ++ l₂).get j = l₁.get ⟨(j : ℕ), hlt⟩ := by
      rw [List.get_eq_getElem, List.get_eq_getElem]
      exact List.getElem_append_left hlt
    rw [hget, h₁ _ (List.get_mem l₁ _ hlt)] at hrem
    cases hrem
  omega

theorem recordTrace_ordered (m : MutationRecord) :
    addsBeforeRemoves (recordTrace m)
    ∧ renderRequestCount (recordTrace m) = (if m.processed then 1 else 0) := by
  by_cases hp : m.processed
  · constructor
    · simp only [recordTrace, if_pos hp, ← List.append_assoc]
      rw [List.append_assoc]
      refine addsBeforeRemoves_append _ _ ?_ ?_
      · intro e he
        simp only [List.mem_map] at he
        obtain ⟨n, _, rfl⟩ := he
        rfl
      · intro e he
        simp only [List.mem_append, List.mem_map, List.mem_singleton] at he
        rcases he with ⟨n, _, rfl⟩ | rfl <;> rfl
    · simp only [recordTrace, if_pos hp, renderRequestCount, List.countP_append,
        List.countP_map]
      have h₁ : m.addedNodes.countP
          (MutationEvent.isRenderRequest ∘ MutationEvent.added) = 0 := by
        simp [MutationEvent.isRenderRequest, Function.comp]
      have h₂ : m.removedNodes.countP
          (MutationEvent.isRenderRequest ∘ MutationEvent.removed) = 0 := by
        simp [MutationEvent.isRenderRequest, Function.comp]
      rw [h₁, h₂]
      simp [List.countP, List.countP.go, MutationEvent.isRenderRequest, hp]
  · refine ⟨?_, by simp [recordTrace, hp, renderRequestCount]⟩
    intro i j _ _
    have hlen : (recordTrace m).length = 0 := by simp [recordTrace, hp]
    exact absurd i.isLt (by omega)

/-- C9 counterexample: the DOM delivers one batch made of two mutation
records — the first removes a `hotspot-a` declaration, the second adds a
`hotspot-b` declaration. The batch contains both added and removed
nodes, yet the added node is processed after the removed node, and two
`$needsRender` requests are issued for the one batch, not one. -/
theorem batch_order_counterexample :
    let x : DomNode := ⟨true, "hotspot-a", none, none⟩
    let y : DomNode := ⟨true, "hotspot-b", none, none⟩
    let batch : List MutationRecord :=
      [⟨true, "childList", [], [x]⟩, ⟨true, "childList", [y], []⟩]
    (∃ m ∈ batch, m.addedNodes ≠ []) ∧ (∃ m ∈ batch, m.removedNodes ≠ [])
    ∧ (mutationCallback ViewerState.initial batch).2 =
        [MutationEvent.removed x, MutationEvent.renderRequested,
          MutationEvent.added y, MutationEvent.renderRequested]
    ∧ ¬ addsBeforeRemoves (mutationCallback ViewerState.initial batch).2
    ∧ renderRequestCount (mutationCallback ViewerState.initial batch).2 = 2 := by
  decide

/-- C9 (amended): `$mutationCallback` processes a delivered batch record
by record, in order; within each qualifying record every added node is
processed before any removed node and exactly one render request is
issued per qualifying record (none for records the guard rejects) — so
the add-before-remove ordering and the single render request hold per
mutation record, not across the whole batch. -/
theorem mutation_batch_record_order (st : ViewerState) (mutations : List MutationRecord) :
    (mutationCallback st mutations).2 = (mutations.map recordTrace).flatten
    ∧ ∀ m ∈ mutations,
        addsBeforeRemoves (recordTrace m)
        ∧ renderRequestCount (recordTrace m) = (if m.processed then 1 else 0) :=
  ⟨mutationCallback_trace mutations st, fun m _ => recordTrace_ordered m⟩

/-- C9 witness: a single record adding one `hotspot-a` declaration and
removing another produces its adds strictly before its removes and one
render request. -/
theorem mutation_batch_record_order_witness :
    (mutationCallback ViewerState.initial
        [⟨true, "childList", [⟨true, "hotspot-a", none, none⟩],
          [⟨true, "hotspot-a", none, none⟩]⟩]).2 =
      ([(⟨true, "childList", [⟨true, "hotspot-a", none, none⟩],
          [⟨true, "hotspot-a", none, none⟩]⟩ : MutationRecord)].map recordTrace).flatten
    ∧ (addsBeforeRemoves (recordTrace
          ⟨true, "childList", [⟨true, "hotspot-a", none, none⟩],
            [⟨true, "hotspot-a", none, none⟩]⟩)
        ∧ renderRequestCount (recordTrace
              ⟨true, "childList", [⟨true, "hotspot-a", none, none⟩],
                [⟨true, "hotspot-a", none, none⟩]⟩) =
            (if MutationRecord.processed
                ⟨true, "childList", [⟨true, "hotspot-a", none, none⟩],
                  [⟨true, "hotspot-a", none, none⟩]⟩ then 1 else 0)) :=
  ⟨(mutation_batch_record_order ViewerState.initial
      [⟨true, "childList", [⟨true, "hotspot-a", none, none⟩],
        [⟨true, "hotspot-a", none, none⟩]⟩]).1,
    (mutation_batch_record_order ViewerState.initial
      [⟨true, "childList", [⟨true, "hotspot-a", none, none⟩],
        [⟨true, "hotspot-a", none, none⟩]⟩]).2 _ (by decide)⟩

/-! ## Claim theorems: picking transform -/

/-- C5: the normalized device coordinate handed to the scene's hit-test
is exactly `((pixelX / width) * 2 - 1, -((pixelY / height) * 2 - 1))`,
and the pixel at the exact viewport center lands on `(0, 0)`. -/
theorem pixel_to_ndc (pixelX pixelY width height : ℚ)
    (hw : 0 < width) (hh : 0 < height) :
    toNdc pixelX pixelY width height =
        ((pixelX / width) * 2 - 1, -((pixelY / height) * 2 - 1))
    ∧ toNdc (width / 2) (height / 2) width height = (0, 0) := by
  constructor
  · rfl
  · have hw' : width ≠ 0 := ne_of_gt hw
    have hh' : height ≠ 0 := ne_of_gt hh
    simp only [toNdc, Prod.mk.injEq]
    constructor
    · field_simp
      ring
    · field_simp
      ring

/-- C5 witness: in a 2×2 viewport the center pixel (1, 1) maps to
normalized device coordinate (0, 0). -/
theorem pixel_to_ndc_witness :
    toNdc 1 1 2 2 = ((1 / 2 : ℚ) * 2 - 1, -((1 / 2 : ℚ) * 2 - 1))
    ∧ toNdc (2 / 2) (2 / 2) 2 2 = (0, 0) :=
  pixel_to_ndc 1 1 2 2 (by norm_num) (by norm_num)

theorem getInverse_is_inverse (m : Matrix (Fin 4) (Fin 4) ℚ) (hdet : m.det ≠ 0) :
    getInverse m * m = 1 ∧ m * getInverse m = 1 := by
  unfold getInverse
  rw [if_neg hdet]
  constructor
  · rw [smul_mul_assoc, Matrix.adjugate_mul, smul_smul, inv_mul_cancel₀ hdet, one_smul]
  · rw [mul_smul_comm, Matrix.mul_adjugate, smul_smul, inv_mul_cancel₀ hdet, one_smul]

/-- C6: when the hit-test reports an intersection (and the model's world
matrix is invertible), the returned position is the hit's world position
transformed by the genuine inverse of `model.matrixWorld` — the matrix
`getInverse model.matrixWorld` is a two-sided inverse — and the returned
normal is the hit's world normal passed through unchanged, not put
through any inverse-transpose. -/
theorem pick_hit_transform (scene : SceneModel) (pixelX pixelY : ℚ) (hit : Hit)
    (hray : scene.raycast (toNdc pixelX pixelY scene.width scene.height) = some hit)
    (hdet : scene.matrixWorld.det ≠ 0) :
    positionAndNormalFromPoint scene pixelX pixelY =
        some ⟨applyMatrix4 (getInverse scene.matrixWorld) hit.position, hit.normal⟩
    ∧ getInverse scene.matrixWorld * scene.matrixWorld = 1
    ∧ scene.matrixWorld * getInverse scene.matrixWorld = 1 := by
  refine ⟨?_, (getInverse_is_inverse scene.matrixWorld hdet).1,
    (getInverse_is_inverse scene.matrixWorld hdet).2⟩
  simp only [positionAndNormalFromPoint, hray]

/-- C6 witness: with the identity world matrix and a hit-test that
always intersects at (1,2,3) with normal (0,1,0), the pick returns the
transformed position with the normal untouched. -/
theorem pick_hit_transform_witness :
    positionAndNormalFromPoint ⟨2, 2, 1, fun _ => some ⟨⟨1, 2, 3⟩, ⟨0, 1, 0⟩⟩⟩ 1 1 =
        some ⟨applyMatrix4 (getInverse 1) ⟨1, 2, 3⟩, ⟨0, 1, 0⟩⟩
    ∧ getInverse (1 : Matrix (Fin 4) (Fin 4) ℚ) * 1 = 1
    ∧ (1 : Matrix (Fin 4) (Fin 4) ℚ) * getInverse 1 = 1 :=
  pick_hit_transform ⟨2, 2, 1, fun _ => some ⟨⟨1, 2, 3⟩, ⟨0, 1, 0⟩⟩⟩ 1 1
    ⟨⟨1, 2, 3⟩, ⟨0, 1, 0⟩⟩ rfl (by simp)

/-- C7: `positionAndNormalFromPoint` (a total function — nothing can be
thrown) returns `null` exactly when the scene's ray hit-test finds no
intersection at the computed normalized device coordinate, whatever the
pixel input — out-of-range pixels included. -/
theorem pick_none_iff (scene : SceneModel) (pixelX pixelY : ℚ) :
    positionAndNormalFromPoint scene pixelX pixelY = none ↔
      scene.raycast (toNdc pixelX pixelY scene.width scene.height) = none := by
  cases hray : scene.raycast (toNdc pixelX pixelY scene.width scene.height) with
  | none => simp [positionAndNormalFromPoint, hray]
  | some hit => simp [positionAndNormalFromPoint, hray]

end ModelViewer
